import Mathlib

/-!
Verification of the LLM response pipeline of the `lilboss` repository
(`src/streamlit_app.py`, `src/utils/*.py`) against its natural-language
specification.  Strings are shallowly embedded as `List Char`; every
definition is translated from the Python source named in its doc comment.
Library calls of the source (Python `json.loads`, `str.strip`,
`datetime` subtraction) are modelled at the level the pipeline observes:
`json.loads` as an executable parser over the JSON grammar that reports
the same error categories CPython's `json` module reports, timestamps as
the rational number of elapsed seconds they induce.
-/

abbrev Str := List Char

/-- Python whitespace characters stripped by `str.strip()` (ASCII range,
which is all the pipeline's strings use). -/
def pyWs (c : Char) : Bool :=
  c = ' ' || c = '\t' || c = '\n' || c = '\r' || c = '\x0b' || c = '\x0c'

/-- Model of Python `str.strip()` with no argument. -/
def pyStrip (s : Str) : Str :=
  ((s.dropWhile pyWs).reverse.dropWhile pyWs).reverse

/-- Model of Python `str.rstrip(",\n ")` as used in
`gemini_handler._parse_json_response` (note: no tab, no carriage return). -/
def rstripCommaNlSpace (s : Str) : Str :=
  (s.reverse.dropWhile (fun c => c = ',' || c = '\n' || c = ' ')).reverse

/-- Substring test, `needle in haystack` of Python. -/
def pyIn (needle haystack : Str) : Bool :=
  decide (needle <:+: haystack)

/-- ASCII model of Python `str.lower()`; the error strings the classifier
matches against are ASCII keywords, so `Char.toLower` agrees with Python
on every character the match can depend on. -/
def pyLower (s : Str) : Str := s.map Char.toLower

/-- `src/utils/validators.py:239-277`, `get_friendly_error_message`:
maps the lowercased error text to one of eight fixed category messages by
substring tests, in source order, falling through to a generic message
built from the first 100 characters of the raw (non-lowercased) error. -/
def get_friendly_error_message (error : Str) : Str :=
  let error_str := pyLower error
  if pyIn "api_key_invalid".toList error_str || pyIn "invalid api key".toList error_str then
    "❌ API key inválida. Verifique sua configuração em .streamlit/secrets.toml".toList
  else if pyIn "quota".toList error_str || pyIn "limit exceeded".toList error_str then
    "⏱️ Limite de uso da API excedido. Aguarde alguns minutos ou use outra API key.".toList
  else if pyIn "rate limit".toList error_str then
    "🚦 Muitas requisições em pouco tempo. Aguarde alguns segundos e tente novamente.".toList
  else if pyIn "timeout".toList error_str then
    "⌛ Tempo de resposta excedido. Tente novamente.".toList
  else if pyIn "connection".toList error_str || pyIn "network".toList error_str then
    "🌐 Erro de conexão com a API. Verifique sua internet e tente novamente.".toList
  else if pyIn "permission".toList error_str || pyIn "forbidden".toList error_str then
    "🔒 Permissão negada. Verifique se a API Gemini está habilitada no seu projeto.".toList
  else if pyIn "not found".toList error_str then
    "🔍 Recurso não encontrado. Verifique se o modelo está disponível.".toList
  else if pyIn "invalid argument".toList error_str || pyIn "invalid request".toList error_str then
    "⚠️ Requisição inválida. Verifique os dados fornecidos.".toList
  else
    "❌ Erro inesperado: ".toList ++ error.take 100

/-- The disjunction of the eight substring tests of
`get_friendly_error_message`, i.e. whether the error falls in any known
category rather than the generic fallthrough. -/
def matchesKnownCategory (error : Str) : Bool :=
  let e := pyLower error
  pyIn "api_key_invalid".toList e || pyIn "invalid api key".toList e ||
  pyIn "quota".toList e || pyIn "limit exceeded".toList e ||
  pyIn "rate limit".toList e ||
  pyIn "timeout".toList e ||
  pyIn "connection".toList e || pyIn "network".toList e ||
  pyIn "permission".toList e || pyIn "forbidden".toList e ||
  pyIn "not found".toList e ||
  pyIn "invalid argument".toList e || pyIn "invalid request".toList e

/-- Python `int()` applied to a float: truncation toward zero. -/
def pyInt (q : ℚ) : ℤ :=
  if 0 ≤ q then ⌊q⌋ else ⌈q⌉

/-- The rate-limit message of `validators.check_rate_limit_status`
(the f-string at `src/utils/validators.py:295`). -/
def rateLimitMsg (remaining : ℤ) : Str :=
  "⏱️ Aguarde ".toList ++ (toString remaining).toList ++
    " segundo(s) antes da próxima análise (rate limiting)".toList

/-- `src/utils/validators.py:280-297`, `check_rate_limit_status`.
The rate state is abstracted to the elapsed seconds since
`st.session_state.last_api_call` (`none` when the field is absent or
`None`); the function reads it and returns a verdict with an optional
message, mutating nothing. -/
def check_rate_limit_status (elapsed : Option ℚ) : Bool × Option Str :=
  match elapsed with
  | none => (true, none)
  | some t =>
    if t < 3 then (false, some (rateLimitMsg (3 - pyInt t)))
    else (true, none)

/-- `src/streamlit_app.py:455-469`, `can_make_api_call`:
the UI-side debounce gate over the same session field. -/
def can_make_api_call (min_interval_seconds : ℚ) (elapsed : Option ℚ) : Bool :=
  match elapsed with
  | none => true
  | some t => decide (min_interval_seconds ≤ t)

/-- One entry of the consultation context
(`src/utils/context_manager.py:55-59`). -/
structure CtxEntry where
  timestamp : Str
  tipo : Str
  conteudo : Str
deriving DecidableEq

/-- The session context dictionary
(`src/utils/context_manager.py:31-42`, `_create_empty_context`). -/
structure MedicalContext where
  timestamp : Str
  especialidade : Str
  entries : List CtxEntry
deriving DecidableEq

/-- `src/utils/context_manager.py:31-42`: the empty context created at
session start (the timestamp is the creation instant, passed in). -/
def create_empty_context (ts : Str) : MedicalContext :=
  { timestamp := ts, especialidade := "Clínica Médica".toList, entries := [] }

/-- `src/utils/context_manager.py:44-61`, `add_information`: no-op when
the text strips to empty, otherwise appends one entry holding the
stripped text, the tag and the current timestamp (passed in). -/
def add_information (ctx : MedicalContext) (texto tipo ts : Str) : MedicalContext :=
  if pyStrip texto = [] then ctx
  else { ctx with entries := ctx.entries ++ [{ timestamp := ts, tipo := tipo, conteudo := pyStrip texto }] }

/-- Python `sep.join(parts)`. -/
def pyJoin (sep : Str) : List Str → Str
  | [] => []
  | [x] => x
  | x :: y :: t => x ++ sep ++ pyJoin sep (y :: t)

/-- `src/streamlit_app.py:516-520`: the accumulated context rendered for
prompting — the entries' contents joined by a blank line
(`"\n\n".join(entry['conteudo'] for entry in all_entries)`).  This is the
`render_full_text` of the specification (section 4.2): the text blob sent
as context to every downstream prompt. -/
def renderFullText (ctx : MedicalContext) : Str :=
  pyJoin "\n\n".toList (ctx.entries.map (·.conteudo))

/-- A sequence of `add_information` calls (text, tag, timestamp) applied
in order, as `process_chat_input` does over a session. -/
def applyAdds (ctx : MedicalContext) (ops : List (Str × Str × Str)) : MedicalContext :=
  ops.foldl (fun c o => add_information c o.1 o.2.1 o.2.2) ctx

/-- JSON values as produced by Python `json.loads`: objects keep
insertion order with duplicate keys collapsed (last value wins, first
position kept).  A number is kept as the exact decimal
`mant · 10 ^ exp10` the text denotes (CPython yields an `int` when the
fraction and exponent groups are absent and a `float` otherwise; the
pipeline never distinguishes the two, and every number it inspects is a
small integer, where the decimal value is exact). -/
inductive JValue where
  | null
  | bool (b : Bool)
  | num (mant : ℤ) (exp10 : ℤ)
  | str (s : Str)
  | arr (elems : List JValue)
  | obj (fields : List (Str × JValue))

def tenPow : Nat → ℤ
  | 0 => 1
  | Nat.succ n => 10 * tenPow n

/-- Numeric equality of two decimals (Python `==` across int/float). -/
def numEqJ (m1 e1 m2 e2 : ℤ) : Bool :=
  if e1 ≤ e2 then m1 == m2 * tenPow (e2 - e1).toNat
  else m1 * tenPow (e1 - e2).toNat == m2

mutual

/-- Structural equality on JSON values (Python `==`), used to model
Python's `in` membership test on parsed lists. -/
def beqJ : JValue → JValue → Bool
  | JValue.null, JValue.null => true
  | JValue.bool a, JValue.bool b => a == b
  | JValue.num m1 e1, JValue.num m2 e2 => numEqJ m1 e1 m2 e2
  | JValue.str a, JValue.str b => a == b
  | JValue.arr a, JValue.arr b => beqListJ a b
  | JValue.obj a, JValue.obj b => beqFieldsJ a b
  | _, _ => false

def beqListJ : List JValue → List JValue → Bool
  | [], [] => true
  | x :: xs, y :: ys => beqJ x y && beqListJ xs ys
  | _, _ => false

def beqFieldsJ : List (Str × JValue) → List (Str × JValue) → Bool
  | [], [] => true
  | (k, v) :: xs, (k2, v2) :: ys => k == k2 && beqJ v v2 && beqFieldsJ xs ys
  | _, _ => false

end

/-- The failure categories of CPython's `json` module that a strict
`json.loads` can raise on the pipeline's inputs.  (`NaN`/`Infinity`
constants and surrogate-pair recombination are not modelled; the
pipeline's prompts request plain JSON objects.) -/
inductive JErr where
  | expectingValue
  | expectingPropertyName
  | expectingColonDelimiter
  | expectingCommaDelimiter
  | unterminatedString
  | invalidControlChar
  | invalidEscape
  | invalidUnicodeEscape
  | extraData
deriving DecidableEq

/-- The message text CPython formats for each `JSONDecodeError` (the
trailing `: line .. column ..` position suffix is omitted — the handler
only substring-matches the head of the message). -/
def jerrMessage : JErr → Str
  | JErr.expectingValue => "Expecting value".toList
  | JErr.expectingPropertyName => "Expecting property name enclosed in double quotes".toList
  | JErr.expectingColonDelimiter => "Expecting \x27:\x27 delimiter".toList
  | JErr.expectingCommaDelimiter => "Expecting \x27,\x27 delimiter".toList
  | JErr.unterminatedString => "Unterminated string starting at".toList
  | JErr.invalidControlChar => "Invalid control character at".toList
  | JErr.invalidEscape => "Invalid \\escape".toList
  | JErr.invalidUnicodeEscape => "Invalid \\uXXXX escape".toList
  | JErr.extraData => "Extra data".toList

/-- `src/utils/gemini_handler.py:180`: the truncation-signature test
`"Unterminated" in error_msg or "Expecting" in error_msg`. -/
def isTruncationSignature (e : JErr) : Bool :=
  pyIn "Unterminated".toList (jerrMessage e) || pyIn "Expecting".toList (jerrMessage e)

/-- The whitespace skipped by CPython's JSON scanner (`' \t\n\r'`). -/
def skipWs (s : Str) : Str :=
  s.dropWhile (fun c => c = ' ' || c = '\t' || c = '\n' || c = '\r')

def hexVal (c : Char) : Option Nat :=
  if '0' ≤ c ∧ c ≤ '9' then some (c.toNat - 48)
  else if 'a' ≤ c ∧ c ≤ 'f' then some (c.toNat - 87)
  else if 'A' ≤ c ∧ c ≤ 'F' then some (c.toNat - 55)
  else none

def escChar (c : Char) : Option Char :=
  if c = '"' then some '"'
  else if c = '\\' then some '\\'
  else if c = '/' then some '/'
  else if c = 'b' then some '\x08'
  else if c = 'f' then some '\x0c'
  else if c = 'n' then some '\n'
  else if c = 'r' then some '\r'
  else if c = 't' then some '\t'
  else none

/-- CPython `py_scanstring` in strict mode, entered just after the
opening quote: returns the decoded content and the rest of the input.
The fuel only bounds recursion depth (each step consumes at least one
character, so `length + 1` fuel makes the exhaustion branch
unreachable). -/
def scanStringF : Nat → Str → Except JErr (Str × Str)
  | 0, _ => Except.error JErr.unterminatedString
  | _, [] => Except.error JErr.unterminatedString
  | Nat.succ f, c :: rest =>
    if c = '"' then Except.ok ([], rest)
    else if c = '\\' then
      match rest with
      | [] => Except.error JErr.unterminatedString
      | e :: rest2 =>
        if e = 'u' then
          match rest2 with
          | h1 :: h2 :: h3 :: h4 :: rest3 =>
            match hexVal h1, hexVal h2, hexVal h3, hexVal h4 with
            | some a, some b, some c2, some d => do
              let (tail, rem) ← scanStringF f rest3
              Except.ok (Char.ofNat (((a * 16 + b) * 16 + c2) * 16 + d) :: tail, rem)
            | _, _, _, _ => Except.error JErr.invalidUnicodeEscape
          | _ => Except.error JErr.invalidUnicodeEscape
        else
          match escChar e with
          | some ec => do
            let (tail, rem) ← scanStringF f rest2
            Except.ok (ec :: tail, rem)
          | none => Except.error JErr.invalidEscape
    else if c.toNat < 0x20 then Except.error JErr.invalidControlChar
    else do
      let (tail, rem) ← scanStringF f rest
      Except.ok (c :: tail, rem)

def scanString (s : Str) : Except JErr (Str × Str) :=
  scanStringF (s.length + 1) s

def takeDigits (s : Str) : Str × Str :=
  (s.takeWhile Char.isDigit, s.dropWhile Char.isDigit)

def natOfDigits (ds : Str) : Nat :=
  ds.foldl (fun a c => a * 10 + (c.toNat - 48)) 0

/-- CPython's `NUMBER_RE` match (`(-?(?:0|[1-9]\d*))(\.\d+)?([eE][-+]?\d+)?`)
together with the int/float conversion, returning the denoted decimal as
`(mantissa, exponent)` and the unconsumed rest; `none` when the regex
does not match at the start. -/
def scanNumber (s : Str) : Option ((ℤ × ℤ) × Str) :=
  let negAndRest : Bool × Str :=
    match s with
    | '-' :: t => (true, t)
    | _ => (false, s)
  let neg := negAndRest.1
  let s1 := negAndRest.2
  let ipart : Option (Str × Str) :=
    match s1 with
    | '0' :: t => some (['0'], t)
    | c :: _ => if c.isDigit then some (takeDigits s1) else none
    | [] => none
  match ipart with
  | none => none
  | some (ids, s2) =>
    let fracAndRest : Str × Str :=
      match s2 with
      | '.' :: t =>
        match t with
        | c :: _ => if c.isDigit then takeDigits t else ([], s2)
        | [] => ([], s2)
      | _ => ([], s2)
    let fds := fracAndRest.1
    let s3 := fracAndRest.2
    let expAndRest : Option ℤ × Str :=
      match s3 with
      | e :: t =>
        if e = 'e' || e = 'E' then
          let signAndRest : Bool × Str :=
            match t with
            | '+' :: u => (false, u)
            | '-' :: u => (true, u)
            | _ => (false, t)
          match signAndRest.2 with
          | c :: _ =>
            if c.isDigit then
              let (eds, t3) := takeDigits signAndRest.2
              (some (if signAndRest.1 then -(natOfDigits eds : ℤ) else (natOfDigits eds : ℤ)), t3)
            else (none, s3)
          | [] => (none, s3)
        else (none, s3)
      | [] => (none, s3)
    let mant : ℤ := (natOfDigits (ids ++ fds) : ℤ)
    let signed : ℤ := if neg then -mant else mant
    let scale : ℤ := (expAndRest.1.getD 0) - (fds.length : ℤ)
    some ((signed, scale), expAndRest.2)

/-- Python `dict(pairs)`: insertion order of first occurrence, later
duplicate keys overwrite the value in place. -/
def objInsert : List (Str × JValue) → Str → JValue → List (Str × JValue)
  | [], k, v => [(k, v)]
  | (k2, v2) :: t, k, v =>
    if k2 = k then (k2, v) :: t else (k2, v2) :: objInsert t k v

def dictOfPairs (ps : List (Str × JValue)) : List (Str × JValue) :=
  ps.foldl (fun acc kv => objInsert acc kv.1 kv.2) []

/-- The five entry points of CPython's JSON scanner, flattened into one
fuel-indexed function so that the recursion is structural: `value` is
`_scan_once`, `object` is `JSONObject` just after `{`, `members acc` its
member loop just after a key's opening quote, `array` is `JSONArray`
just after `[`, and `elems acc` its element loop. -/
inductive ScanMode where
  | value : ScanMode
  | object : ScanMode
  | members : List (Str × JValue) → ScanMode
  | array : ScanMode
  | elems : List JValue → ScanMode

/-- CPython's JSON scanner.  The fuel argument only bounds recursion
depth; `loads` passes more fuel than any input can consume (each chain of
at most three fuel-consuming calls consumes at least one character), so
the fuel-exhaustion branch is unreachable. -/
def scanCore : Nat → ScanMode → Str → Except JErr (JValue × Str)
  | 0, _, _ => Except.error JErr.expectingValue
  | Nat.succ f, ScanMode.value, s =>
    match s with
    | [] => Except.error JErr.expectingValue
    | c :: rest =>
      if c = '"' then do
        let (cs, rem) ← scanString rest
        Except.ok (JValue.str cs, rem)
      else if c = '{' then scanCore f ScanMode.object rest
      else if c = '[' then scanCore f ScanMode.array rest
      else if "null".toList.isPrefixOf s then Except.ok (JValue.null, s.drop 4)
      else if "true".toList.isPrefixOf s then Except.ok (JValue.bool true, s.drop 4)
      else if "false".toList.isPrefixOf s then Except.ok (JValue.bool false, s.drop 5)
      else
        match scanNumber s with
        | some (me, rem) => Except.ok (JValue.num me.1 me.2, rem)
        | none => Except.error JErr.expectingValue
  | Nat.succ f, ScanMode.object, s =>
    match skipWs s with
    | '}' :: rest => Except.ok (JValue.obj [], rest)
    | '"' :: rest => scanCore f (ScanMode.members []) rest
    | _ => Except.error JErr.expectingPropertyName
  | Nat.succ f, ScanMode.members acc, s => do
    let (key, s1) ← scanString s
    match skipWs s1 with
    | ':' :: s2 => do
      let (v, s3) ← scanCore f ScanMode.value (skipWs s2)
      let acc2 := acc ++ [(key, v)]
      match skipWs s3 with
      | '}' :: rest => Except.ok (JValue.obj (dictOfPairs acc2), rest)
      | ',' :: s4 =>
        match skipWs s4 with
        | '"' :: s5 => scanCore f (ScanMode.members acc2) s5
        | _ => Except.error JErr.expectingPropertyName
      | _ => Except.error JErr.expectingCommaDelimiter
    | _ => Except.error JErr.expectingColonDelimiter
  | Nat.succ f, ScanMode.array, s =>
    match skipWs s with
    | ']' :: rest => Except.ok (JValue.arr [], rest)
    | s1 => scanCore f (ScanMode.elems []) s1
  | Nat.succ f, ScanMode.elems acc, s => do
    let (v, s1) ← scanCore f ScanMode.value s
    let acc2 := acc ++ [v]
    match skipWs s1 with
    | ']' :: rest => Except.ok (JValue.arr acc2, rest)
    | ',' :: s2 => scanCore f (ScanMode.elems acc2) (skipWs s2)
    | _ => Except.error JErr.expectingCommaDelimiter

/-- CPython scanner `_scan_once`. -/
def scanOnce (fuel : Nat) (s : Str) : Except JErr (JValue × Str) :=
  scanCore fuel ScanMode.value s

/-- Python `json.loads`: skip leading whitespace, scan one value, then
require only whitespace to remain ("Extra data" otherwise).  The fuel
`3 * length + 3` overapproximates the deepest possible recursion (each
fuel-consuming chain of at most three calls consumes at least one input
character), so the scanner's fuel-exhaustion branches are unreachable. -/
def loads (s : Str) : Except JErr JValue := do
  let (v, rest) ← scanOnce (3 * s.length + 3) (skipWs s)
  if skipWs rest = [] then Except.ok v else Except.error JErr.extraData

def jGetFields : List (Str × JValue) → Str → Option JValue
  | [], _ => none
  | (k2, v) :: t, k => if k2 = k then some v else jGetFields t k

/-- Python dict key lookup (`d[k]` / `k in d`), `none` on any non-dict. -/
def jGet (v : JValue) (k : Str) : Option JValue :=
  match v with
  | JValue.obj fs => jGetFields fs k
  | _ => none

/-- Python truthiness of a parsed JSON value. -/
def jTruthy : JValue → Bool
  | JValue.null => false
  | JValue.bool b => b
  | JValue.num m _ => !(m == 0)
  | JValue.str s => !s.isEmpty
  | JValue.arr l => !l.isEmpty
  | JValue.obj fs => !fs.isEmpty

def diagKey : Str := "diagnosticos".toList

/-- The literal marker `'"diagnosticos": ['` that
`_parse_json_response` requires before attempting repair
(`src/utils/gemini_handler.py:198`). -/
def diagMarker : Str := "\"diagnosticos\": [".toList

/-- `src/utils/gemini_handler.py:159-171`: strip whitespace and the
markdown code-fence markers from the raw response. -/
def stripFences (response_text : Str) : Str :=
  let c1 := pyStrip response_text
  let c2 :=
    if "```json".toList.isPrefixOf c1 then c1.drop 7
    else if "```".toList.isPrefixOf c1 then c1.drop 3
    else c1
  let c3 := if "```".toList.isSuffixOf c2 then c2.take (c2.length - 3) else c2
  pyStrip c3

/-- `src/utils/gemini_handler.py:200-211`: the structural repair text —
strip trailing `,`/newline/space characters, count unmatched braces and
brackets, then append one `"\n}"` per missing closing brace followed by
one `"\n]"` per missing closing bracket (braces first: that is the
source's loop order). -/
def repairedText (clean : Str) : Str :=
  let c1 := rstripCommaNlSpace clean
  let openBraces := c1.count '{'
  let closeBraces := c1.count '}'
  let openBrackets := c1.count '['
  let closeBrackets := c1.count ']'
  c1 ++ (List.replicate (openBraces - closeBraces) "\n\x7d".toList).flatten
     ++ (List.replicate (openBrackets - closeBrackets) "\n]".toList).flatten

/-- `src/utils/gemini_handler.py:147-233`, `_parse_json_response`:
fence-strip, strict parse; on a truncation-signature failure
(`"Unterminated" in msg or "Expecting" in msg`) and only when the cleaned
text contains `'"diagnosticos": ['`, re-parse the repaired text and
return it when its `diagnosticos` entry is present and truthy; `none` in
every other case. -/
def parse_json_response (response_text : Str) : Option JValue :=
  let clean_text := stripFences response_text
  match loads clean_text with
  | Except.ok v => some v
  | Except.error e =>
    if isTruncationSignature e then
      if pyIn diagMarker clean_text then
        match loads (repairedText clean_text) with
        | Except.ok pv =>
          match jGet pv diagKey with
          | some dv => if jTruthy dv then some pv else none
          | none => none
        | Except.error _ => none
      else none
    else none

/-- The repair as claim C1 words it (specification section 4.5, step 3):
on any truncation-signature parse failure — with no `diagnosticos`-marker
precondition — strip trailing commas/whitespace, count unmatched opening
braces and brackets, append the missing closing tokens in
bracket-then-brace order, and re-attempt a strict parse, keeping the
result when it carries a non-empty `diagnosticos` list.  This definition
follows the claim's words, to be compared with `parse_json_response`
which is translated from the source. -/
def claimRepairedText (clean : Str) : Str :=
  let c1 := rstripCommaNlSpace clean
  let openBraces := c1.count '{'
  let closeBraces := c1.count '}'
  let openBrackets := c1.count '['
  let closeBrackets := c1.count ']'
  c1 ++ (List.replicate (openBrackets - closeBrackets) "\n]".toList).flatten
     ++ (List.replicate (openBraces - closeBraces) "\n\x7d".toList).flatten

/-- The whole parse step as claim C1 describes it (see
`claimRepairedText`). -/
def claimParseResponse (response_text : Str) : Option JValue :=
  let clean_text := stripFences response_text
  match loads clean_text with
  | Except.ok v => some v
  | Except.error e =>
    if isTruncationSignature e then
      match loads (claimRepairedText clean_text) with
      | Except.ok pv =>
        match jGet pv diagKey with
        | some dv => if jTruthy dv then some pv else none
        | none => none
      | Except.error _ => none
    else none

/-- Behaviour of the remote generation endpoint on one attempt:
`model.generate_content(prompt)` either raises (carrying the error text
the classifier will see) or returns a response whose text is `text`
(CPython treats a falsy response object and an empty `response.text` the
same way, so both are modelled as `ret []`). -/
inductive GenOutcome where
  | raise (err : Str)
  | ret (text : Str)

/-- The observable side effects of one pipeline call, in order: a call
reaching the remote endpoint on a given attempt, an assignment to
`st.session_state.last_api_call`, a `time.sleep` of the given number of
seconds. -/
inductive ApiEvent where
  | callEndpoint (attempt : Nat)
  | updateLastCall
  | sleep (seconds : Nat)
deriving DecidableEq

/-- `src/utils/gemini_handler.py:288-302`: the check
`"diagnosticos" in result and isinstance(result["diagnosticos"], list)`.
`ok` carries the diagnosis list; `error` carries the message of the
exception the Python expression raises or the `ValueError` the code
raises when the check is false (the `TypeError` texts of the non-dict
corners are abbreviated; all of them reach the classifier's generic
branch either way). -/
def structureCheck : JValue → Except Str (List JValue)
  | JValue.obj fs =>
    match jGet (JValue.obj fs) diagKey with
    | some (JValue.arr l) => Except.ok l
    | some _ => Except.error "Estrutura JSON inválida na resposta".toList
    | none => Except.error "Estrutura JSON inválida na resposta".toList
  | JValue.arr l =>
    if l.any (fun x => beqJ x (JValue.str diagKey)) then
      Except.error "list indices must be integers or slices, not str".toList
    else Except.error "Estrutura JSON inválida na resposta".toList
  | JValue.str s =>
    if pyIn diagKey s then Except.error "string indices must be integers".toList
    else Except.error "Estrutura JSON inválida na resposta".toList
  | _ => Except.error "argument of type is not iterable".toList

/-- `src/utils/gemini_handler.py:290`:
`result["diagnosticos"] = result["diagnosticos"][:5]`. -/
def truncDiagArr : JValue → JValue
  | JValue.arr l => JValue.arr (l.take 5)
  | v => v

def limitDiag : JValue → JValue
  | JValue.obj fs =>
    JValue.obj (fs.map (fun kv => if kv.1 = diagKey then (kv.1, truncDiagArr kv.2) else kv))
  | v => v

/-- Outcome of one iteration of the `analyze_case` retry loop: success
with the value the iteration returns, or failure carrying the error
message that would be returned were this the final attempt. -/
inductive AttemptOut where
  | ok (v : JValue)
  | fail (finalMsg : Str)

/-- `src/utils/gemini_handler.py:280-311`: what one `analyze_case`
iteration does with a returned response text — raise `ValueError` on
empty text (caught and classified by the iteration's own `except`),
parse, validate structure and truncate to 5 diagnoses on success.  A
parse failure without an exception keeps its dedicated final message. -/
def attemptResponse (text : Str) : AttemptOut :=
  if text.isEmpty then
    AttemptOut.fail (get_friendly_error_message "Resposta vazia do modelo".toList)
  else
    match parse_json_response text with
    | some result =>
      match structureCheck result with
      | Except.ok _ => AttemptOut.ok (limitDiag result)
      | Except.error m => AttemptOut.fail (get_friendly_error_message m)
    | none => AttemptOut.fail "Falha ao parsear resposta após múltiplas tentativas".toList

/-- One iteration of the retry loop of `analyze_case`
(`src/utils/gemini_handler.py:269-328`): call the endpoint; if the call
raises, the `except` classifies the error and no `last_api_call` update
happens; if it returns, `last_api_call` is updated immediately and the
response is processed by `attemptResponse`. -/
def attemptOnce (env : Nat → GenOutcome) (i : Nat) : List ApiEvent × AttemptOut :=
  match env i with
  | GenOutcome.raise e =>
    ([ApiEvent.callEndpoint i], AttemptOut.fail (get_friendly_error_message e))
  | GenOutcome.ret text =>
    ([ApiEvent.callEndpoint i, ApiEvent.updateLastCall], attemptResponse text)

/-- The retry loop of `analyze_case`: on failure with attempts left,
`time.sleep(2 ** attempt)` then retry; on the last attempt return the
failure's message; the post-loop fallthrough returns the unknown-error
message. -/
def analyzeLoop (env : Nat → GenOutcome) :
    Nat → Nat → List ApiEvent × (Option JValue × Option Str)
  | 0, _ => ([], (none, some "Erro desconhecido durante análise".toList))
  | Nat.succ r, i =>
    let step := attemptOnce env i
    match step.2 with
    | AttemptOut.ok v => (step.1, (some v, none))
    | AttemptOut.fail msg =>
      if r = 0 then (step.1, (none, some msg))
      else
        let rest := analyzeLoop env r (i + 1)
        (step.1 ++ ApiEvent.sleep (2 ^ i) :: rest.1, rest.2)

/-- `src/utils/gemini_handler.py:235-330`, `analyze_case`: the
unconfigured-model and blank-context guards, then the retry loop.
Returns the emitted event trace and the `(result, error)` pair. -/
def analyze_case (modelConfigured : Bool) (env : Nat → GenOutcome)
    (context : Str) (max_retries : Nat) :
    List ApiEvent × (Option JValue × Option Str) :=
  if !modelConfigured then
    ([], (none, some "Modelo Gemini não está configurado corretamente".toList))
  else if pyStrip context = [] then
    ([], (none, some "Contexto vazio fornecido para análise".toList))
  else analyzeLoop env max_retries 0

/-- `src/utils/gemini_handler.py:487-497`,
`_validate_suggestions_structure`: the three required keys are present
and each maps to a list.  (A parsed non-dict top level fails the `in`
tests and yields `False`.) -/
def validate_suggestions_structure (v : JValue) : Bool :=
  ["follow_up_questions".toList, "suggested_exams".toList,
   "management_suggestions".toList].all (fun k =>
    match jGet v k with
    | some (JValue.arr _) => true
    | _ => false)

/-- Outcome of one iteration of the `generate_suggestions` retry loop.
`failNoSleep` is the empty-response path, which falls through the
iteration with no sleep; `failSleep` is the falsy-or-invalid parse
result path; `exc` an exception from the call. -/
inductive SuggOut where
  | ok (v : JValue)
  | failSleep
  | failNoSleep
  | exc

/-- What one `generate_suggestions` iteration does with a returned
response (`src/utils/gemini_handler.py:435-450`). -/
def suggResponse (text : Str) : SuggOut :=
  if text.isEmpty then SuggOut.failNoSleep
  else
    match parse_json_response text with
    | some r =>
      if jTruthy r && validate_suggestions_structure r then SuggOut.ok r
      else SuggOut.failSleep
    | none => SuggOut.failSleep

/-- One iteration of the retry loop of `generate_suggestions`
(`src/utils/gemini_handler.py:427-460`). -/
def suggOnce (env : Nat → GenOutcome) (i : Nat) : List ApiEvent × SuggOut :=
  match env i with
  | GenOutcome.raise _ => ([ApiEvent.callEndpoint i], SuggOut.exc)
  | GenOutcome.ret text =>
    ([ApiEvent.callEndpoint i, ApiEvent.updateLastCall], suggResponse text)

/-- The retry loop of `generate_suggestions`: `time.sleep(1)` before a
retry except on the empty-response path, `None` after the loop or from
the final attempt's `except`. -/
def suggestionsLoop (env : Nat → GenOutcome) :
    Nat → Nat → List ApiEvent × Option JValue
  | 0, _ => ([], none)
  | Nat.succ r, i =>
    let step := suggOnce env i
    match step.2 with
    | SuggOut.ok v => (step.1, some v)
    | SuggOut.failNoSleep =>
      if r = 0 then (step.1, none)
      else
        let rest := suggestionsLoop env r (i + 1)
        (step.1 ++ rest.1, rest.2)
    | SuggOut.failSleep =>
      if r = 0 then (step.1, none)
      else
        let rest := suggestionsLoop env r (i + 1)
        (step.1 ++ ApiEvent.sleep 1 :: rest.1, rest.2)
    | SuggOut.exc =>
      if r = 0 then (step.1, none)
      else
        let rest := suggestionsLoop env r (i + 1)
        (step.1 ++ ApiEvent.sleep 1 :: rest.1, rest.2)

def generate_suggestions (env : Nat → GenOutcome) (max_retries : Nat) :
    List ApiEvent × Option JValue :=
  suggestionsLoop env max_retries 0

/-- Outcome of one iteration of the `generate_traditional_record` retry
loop (`src/utils/medical_record_generator.py:177-218`). -/
inductive RecOut where
  | ok (text : Str)
  | empty
  | exc (err : Str)

/-- What one `generate_traditional_record` iteration does with a
returned response (`src/utils/medical_record_generator.py:185-200`). -/
def recordResponse (text : Str) : RecOut :=
  if text.isEmpty then RecOut.empty else RecOut.ok (pyStrip text)

def recordOnce (env : Nat → GenOutcome) (i : Nat) : List ApiEvent × RecOut :=
  match env i with
  | GenOutcome.raise e => ([ApiEvent.callEndpoint i], RecOut.exc e)
  | GenOutcome.ret text =>
    ([ApiEvent.callEndpoint i, ApiEvent.updateLastCall], recordResponse text)

/-- The retry loop of `generate_traditional_record`: `time.sleep(1)`
before every retry, distinct final messages for the empty-response and
exception paths, `"Erro desconhecido"` after the loop. -/
def recordLoop (env : Nat → GenOutcome) :
    Nat → Nat → List ApiEvent × (Option Str × Option Str)
  | 0, _ => ([], (none, some "Erro desconhecido".toList))
  | Nat.succ r, i =>
    let step := recordOnce env i
    match step.2 with
    | RecOut.ok t => (step.1, (some t, none))
    | RecOut.empty =>
      if r = 0 then (step.1, (none, some "Resposta vazia do modelo".toList))
      else
        let rest := recordLoop env r (i + 1)
        (step.1 ++ ApiEvent.sleep 1 :: rest.1, rest.2)
    | RecOut.exc e =>
      if r = 0 then (step.1, (none, some (get_friendly_error_message e)))
      else
        let rest := recordLoop env r (i + 1)
        (step.1 ++ ApiEvent.sleep 1 :: rest.1, rest.2)

def generate_traditional_record (env : Nat → GenOutcome) (max_retries : Nat) :
    List ApiEvent × (Option Str × Option Str) :=
  recordLoop env max_retries 0

/-- The sleep durations occurring in a trace, in order. -/
def sleepsOf (tr : List ApiEvent) : List Nat :=
  tr.filterMap (fun e =>
    match e with
    | ApiEvent.sleep n => some n
    | _ => none)

/-- Claim C4's property of a trace: every attempt whose remote call
returned (did not raise) has its `last_api_call` update immediately
after the call event. -/
def updatesFollowReturningCalls (env : Nat → GenOutcome) (tr : List ApiEvent) : Prop :=
  ∀ i, ApiEvent.callEndpoint i ∈ tr → (∃ t, env i = GenOutcome.ret t) →
    [ApiEvent.callEndpoint i, ApiEvent.updateLastCall] <:+: tr

theorem pyJoin_mem_infix (sep : Str) : ∀ (L : List Str), ∀ a ∈ L, a <:+: pyJoin sep L
  | [], a, h => absurd h (List.not_mem_nil a)
  | [x], a, h => by
    rcases List.mem_singleton.mp h with rfl
    exact List.infix_rfl
  | x :: y :: t, a, h => by
    rcases List.mem_cons.mp h with rfl | h2
    · exact ⟨[], sep ++ pyJoin sep (y :: t), by simp [pyJoin]⟩
    · rcases pyJoin_mem_infix sep (y :: t) a h2 with ⟨s, u, hsu⟩
      exact ⟨x ++ sep ++ s, u, by simp [pyJoin, ← hsu]⟩

/-- The entry appended by one `add_information` call, if any. -/
def addedEntry (o : Str × Str × Str) : Option CtxEntry :=
  if pyStrip o.1 = [] then none
  else some { timestamp := o.2.2, tipo := o.2.1, conteudo := pyStrip o.1 }

theorem applyAdds_entries : ∀ (ops : List (Str × Str × Str)) (ctx : MedicalContext),
    (applyAdds ctx ops).entries = ctx.entries ++ ops.filterMap addedEntry
  | [], ctx => by simp [applyAdds]
  | o :: t, ctx => by
    have ih := applyAdds_entries t (add_information ctx o.1 o.2.1 o.2.2)
    show (applyAdds (add_information ctx o.1 o.2.1 o.2.2) t).entries = _
    rw [ih]
    by_cases h : pyStrip o.1 = [] <;>
      simp [add_information, addedEntry, h, List.filterMap_cons]

/-- Claim C5: the error classifier is total — it returns a non-empty
string on every input (it cannot raise or return null by construction),
and any error matching none of the known substring categories maps to
the generic message carrying the first 100 characters of the raw error
text. -/
theorem claim_C5_theorem (e : Str) :
    get_friendly_error_message e ≠ [] ∧
    (matchesKnownCategory e = false →
      get_friendly_error_message e = "❌ Erro inesperado: ".toList ++ e.take 100) := by
  constructor
  · simp only [get_friendly_error_message]
    split
    · decide
    split
    · decide
    split
    · decide
    split
    · decide
    split
    · decide
    split
    · decide
    split
    · decide
    split
    · decide
    intro h
    rcases List.append_eq_nil.mp h with ⟨h1, _⟩
    exact absurd h1 (by decide)
  · intro h
    unfold matchesKnownCategory at h
    simp only [Bool.or_eq_false_iff] at h
    obtain ⟨⟨⟨⟨⟨⟨⟨⟨⟨⟨⟨⟨h1, h2⟩, h3⟩, h4⟩, h5⟩, h6⟩, h7⟩, h8⟩, h9⟩, h10⟩, h11⟩, h12⟩, h13⟩ := h
    simp only [get_friendly_error_message, h1, h2, h3, h4, h5, h6, h7, h8, h9, h10, h11, h12, h13,
      Bool.or_self, if_false, Bool.false_eq_true]

def garbageInput : Str := "@@@###".toList

/-- Witness for C5 at a garbage input. -/
theorem claim_C5_witness :
    get_friendly_error_message garbageInput ≠ [] ∧
    get_friendly_error_message garbageInput =
      "❌ Erro inesperado: ".toList ++ garbageInput.take 100 :=
  ⟨(claim_C5_theorem garbageInput).1,
   (claim_C5_theorem garbageInput).2 (by decide)⟩

/-- Claim C6: the rate gate is a pure read of the last-call state; it
answers true exactly when the timestamp is absent or at least
`min_interval = 3` seconds have elapsed (so true at exactly 3 seconds),
and otherwise answers false together with the remaining-seconds
message. -/
theorem claim_C6_theorem (st : Option ℚ) :
    ((check_rate_limit_status st).1 = true ↔
      st = none ∨ ∃ t, st = some t ∧ (3 : ℚ) ≤ t) ∧
    ((check_rate_limit_status st).1 = false →
      ∃ t, st = some t ∧ t < 3 ∧
        (check_rate_limit_status st).2 = some (rateLimitMsg (3 - pyInt t))) := by
  cases st with
  | none => exact ⟨⟨fun _ => Or.inl rfl, fun _ => rfl⟩, fun h => by simp [check_rate_limit_status] at h⟩
  | some t =>
    by_cases h : t < 3
    · refine ⟨⟨fun hc => ?_, fun hc => ?_⟩, fun _ => ⟨t, rfl, h, ?_⟩⟩
      · simp [check_rate_limit_status, h] at hc
      · rcases hc with hn | ⟨u, hu, hle⟩
        · exact Option.noConfusion hn
        · rcases Option.some.injEq .. ▸ hu with rfl
          exact absurd hle (not_le.mpr (by simpa using h))
      · simp [check_rate_limit_status, h]
    · refine ⟨⟨fun _ => Or.inr ⟨t, rfl, not_lt.mp h⟩, fun _ => ?_⟩, fun hc => ?_⟩
      · simp [check_rate_limit_status, h]
      · simp [check_rate_limit_status, h] at hc

/-- Witness for C6: absent state, the exact 3-second boundary, and a
cooldown violation at 0 elapsed seconds with its message. -/
theorem claim_C6_witness :
    (check_rate_limit_status none).1 = true ∧
    (check_rate_limit_status (some 3)).1 = true ∧
    (check_rate_limit_status (some 0)).2 = some (rateLimitMsg 3) := by
  refine ⟨(claim_C6_theorem none).1.mpr (Or.inl rfl),
          (claim_C6_theorem (some 3)).1.mpr (Or.inr ⟨3, rfl, le_refl 3⟩), ?_⟩
  have hf : (check_rate_limit_status (some 0)).1 = false := by
    simp [check_rate_limit_status]
  obtain ⟨t, ht, _, hmsg⟩ := (claim_C6_theorem (some 0)).2 hf
  rcases Option.some.injEq .. ▸ ht with rfl
  rw [hmsg]
  norm_num [pyInt]

/-- Claim C10 (refinement): the validator-side gate
`check_rate_limit_status` and the UI-side gate `can_make_api_call` (at
its default 3-second interval) give the same verdict on every rate
state. -/
theorem claim_C10_theorem (st : Option ℚ) :
    can_make_api_call 3 st = (check_rate_limit_status st).1 := by
  cases st with
  | none => rfl
  | some t =>
    by_cases h : t < 3
    · simp [can_make_api_call, check_rate_limit_status, h, not_le.mpr h]
    · simp [can_make_api_call, check_rate_limit_status, h, not_lt.mp h]

/-- Counterexample to claim C7 as stated: for text with surrounding
whitespace — here `" a "` — the accumulator stores the stripped text, so
the original text is not a contiguous substring of the rendered
context. -/
theorem claim_C7_counterexample :
    pyStrip " a ".toList ≠ [] ∧
    ¬ (" a ".toList <:+:
        renderFullText
          (add_information (create_empty_context []) " a ".toList "dados_paciente".toList [])) :=
  ⟨by decide, by decide⟩

/-- Claim C7 (amended): adding text that strips to empty is a no-op on
the context; adding any other text appends exactly one entry (entry
count increases by exactly 1), preserves every prior entry, and the
*stripped* text occurs as a contiguous substring of a subsequent render
of the full context. -/
theorem claim_C7_theorem (ctx : MedicalContext) (texto tipo ts : Str) :
    (pyStrip texto = [] → add_information ctx texto tipo ts = ctx) ∧
    (pyStrip texto ≠ [] →
      (add_information ctx texto tipo ts).entries.length = ctx.entries.length + 1 ∧
      ctx.entries <+: (add_information ctx texto tipo ts).entries ∧
      pyStrip texto <:+: renderFullText (add_information ctx texto tipo ts)) := by
  constructor
  · intro h
    simp [add_information, h]
  · intro h
    refine ⟨by simp [add_information, h], ?_, ?_⟩
    · simp only [add_information, h, if_false]
      exact List.prefix_append _ _
    · have hmem : pyStrip texto ∈ ((add_information ctx texto tipo ts).entries.map (·.conteudo)) := by
        simp [add_information, h]
      exact pyJoin_mem_infix _ _ _ hmem

/-- Witness for C7: a blank add is a no-op, and a real add leaves its
text visible in the render. -/
theorem claim_C7_witness :
    add_information (create_empty_context []) "   ".toList "info".toList [] =
      create_empty_context [] ∧
    pyStrip "febre".toList <:+:
      renderFullText (add_information (create_empty_context []) "febre".toList "info".toList []) :=
  ⟨(claim_C7_theorem (create_empty_context []) "   ".toList "info".toList []).1 (by decide),
   ((claim_C7_theorem (create_empty_context []) "febre".toList "info".toList []).2 (by decide)).2.2⟩

/-- Claim C8: over any session — any sequence of add operations starting
from the empty context — the rendered full context is exactly the
entries' contents (the stripped non-blank submitted texts) in insertion
order, joined by a blank-line separator. -/
theorem claim_C8_theorem (ts : Str) (ops : List (Str × Str × Str)) :
    renderFullText (applyAdds (create_empty_context ts) ops) =
      pyJoin "\n\n".toList
        (ops.filterMap (fun o => if pyStrip o.1 = [] then none else some (pyStrip o.1))) := by
  unfold renderFullText
  rw [applyAdds_entries]
  have hfun : (fun o => (addedEntry o).map (·.conteudo)) =
      (fun o : Str × Str × Str => if pyStrip o.1 = [] then none else some (pyStrip o.1)) := by
    funext o
    by_cases h : pyStrip o.1 = [] <;> simp [addedEntry, h]
  simp only [create_empty_context, List.nil_append]
  rw [List.map_filterMap, hfun]

theorem attemptOnce_fst (env : Nat → GenOutcome) (i : Nat) :
    (attemptOnce env i).1 = [ApiEvent.callEndpoint i] ∨
    (attemptOnce env i).1 = [ApiEvent.callEndpoint i, ApiEvent.updateLastCall] := by
  unfold attemptOnce
  cases env i
  · exact Or.inl rfl
  · exact Or.inr rfl

theorem attemptOnce_fst_ret (env : Nat → GenOutcome) (i : Nat) (t : Str)
    (h : env i = GenOutcome.ret t) :
    (attemptOnce env i).1 = [ApiEvent.callEndpoint i, ApiEvent.updateLastCall] := by
  unfold attemptOnce
  rw [h]

theorem attemptOnce_fst_raise (env : Nat → GenOutcome) (i : Nat) (e : Str)
    (h : env i = GenOutcome.raise e) :
    (attemptOnce env i).1 = [ApiEvent.callEndpoint i] := by
  unfold attemptOnce
  rw [h]

theorem analyzeLoop_succ (env : Nat → GenOutcome) (r i : Nat) :
    analyzeLoop env (r + 1) i =
      match (attemptOnce env i).2 with
      | AttemptOut.ok v => ((attemptOnce env i).1, (some v, none))
      | AttemptOut.fail msg =>
        if r = 0 then ((attemptOnce env i).1, (none, some msg))
        else ((attemptOnce env i).1 ++ ApiEvent.sleep (2 ^ i) :: (analyzeLoop env r (i + 1)).1,
              (analyzeLoop env r (i + 1)).2) := rfl

/-- One retry-loop iteration emits exactly its call/update block. -/
def attemptBlock (i : Nat) (b : List ApiEvent) : Prop :=
  b = [ApiEvent.callEndpoint i] ∨ b = [ApiEvent.callEndpoint i, ApiEvent.updateLastCall]

theorem analyze3_shape (env : Nat → GenOutcome) (context : Str) (h : pyStrip context ≠ []) :
    ∃ b0 b1 b2, attemptBlock 0 b0 ∧ attemptBlock 1 b1 ∧ attemptBlock 2 b2 ∧
      ((analyze_case true env context 3).1 = b0 ∨
       (analyze_case true env context 3).1 = b0 ++ ApiEvent.sleep 1 :: b1 ∨
       (analyze_case true env context 3).1 =
         b0 ++ ApiEvent.sleep 1 :: (b1 ++ ApiEvent.sleep 2 :: b2)) := by
  have hrun : analyze_case true env context 3 = analyzeLoop env 3 0 := by
    simp [analyze_case, h]
  refine ⟨(attemptOnce env 0).1, (attemptOnce env 1).1, (attemptOnce env 2).1,
    attemptOnce_fst env 0, attemptOnce_fst env 1, attemptOnce_fst env 2, ?_⟩
  cases h0 : (attemptOnce env 0).2 with
  | ok v =>
    refine Or.inl ?_
    have e3 : analyzeLoop env 3 0 = ((attemptOnce env 0).1, (some v, none)) := by
      rw [show (3 : Nat) = 2 + 1 from rfl, analyzeLoop_succ, h0]
    rw [hrun, e3]
  | fail msg =>
    have e3 : (analyzeLoop env 3 0).1 =
        (attemptOnce env 0).1 ++ ApiEvent.sleep 1 :: (analyzeLoop env 2 1).1 := by
      rw [show (3 : Nat) = 2 + 1 from rfl, analyzeLoop_succ, h0]
      norm_num
    cases h1 : (attemptOnce env 1).2 with
    | ok v =>
      refine Or.inr (Or.inl ?_)
      have e2 : (analyzeLoop env 2 1).1 = (attemptOnce env 1).1 := by
        rw [show (2 : Nat) = 1 + 1 from rfl, analyzeLoop_succ, h1]
      rw [hrun, e3, e2]
    | fail msg1 =>
      have e2 : (analyzeLoop env 2 1).1 =
          (attemptOnce env 1).1 ++ ApiEvent.sleep 2 :: (analyzeLoop env 1 2).1 := by
        rw [show (2 : Nat) = 1 + 1 from rfl, analyzeLoop_succ, h1]
        norm_num
      refine Or.inr (Or.inr ?_)
      cases h2 : (attemptOnce env 2).2 with
      | ok v =>
        have e1 : (analyzeLoop env 1 2).1 = (attemptOnce env 2).1 := by
          rw [show (1 : Nat) = 0 + 1 from rfl, analyzeLoop_succ, h2]
        rw [hrun, e3, e2, e1]
      | fail msg2 =>
        have e1 : (analyzeLoop env 1 2).1 = (attemptOnce env 2).1 := by
          rw [show (1 : Nat) = 0 + 1 from rfl, analyzeLoop_succ, h2]
          norm_num
        rw [hrun, e3, e2, e1]

/-- Claim C2: in a run of `analyze_case` with `max_retries = 3`, the
sleeps form a prefix of `[1, 2]` (2^attempt seconds, 0-indexed), and the
trace decomposes into per-attempt blocks with `sleep 1` only between
attempts 0 and 1 and `sleep 2` only between attempts 1 and 2 — no sleep
before the first attempt or after the final failed attempt. -/
theorem claim_C2_theorem (env : Nat → GenOutcome) (context : Str)
    (h : pyStrip context ≠ []) :
    sleepsOf (analyze_case true env context 3).1 <+: [1, 2] ∧
    (∃ b0 b1 b2, attemptBlock 0 b0 ∧ attemptBlock 1 b1 ∧ attemptBlock 2 b2 ∧
      ((analyze_case true env context 3).1 = b0 ∨
       (analyze_case true env context 3).1 = b0 ++ ApiEvent.sleep 1 :: b1 ∨
       (analyze_case true env context 3).1 =
         b0 ++ ApiEvent.sleep 1 :: (b1 ++ ApiEvent.sleep 2 :: b2))) := by
  obtain ⟨b0, b1, b2, hb0, hb1, hb2, hdisj⟩ := analyze3_shape env context h
  have sapp : ∀ a b : List ApiEvent, sleepsOf (a ++ b) = sleepsOf a ++ sleepsOf b :=
    fun a b => List.filterMap_append ..
  have scons : ∀ (n : Nat) (l : List ApiEvent),
      sleepsOf (ApiEvent.sleep n :: l) = n :: sleepsOf l := fun n l => rfl
  have s0 : sleepsOf b0 = [] := by rcases hb0 with rfl | rfl <;> rfl
  have s1 : sleepsOf b1 = [] := by rcases hb1 with rfl | rfl <;> rfl
  have s2 : sleepsOf b2 = [] := by rcases hb2 with rfl | rfl <;> rfl
  refine ⟨?_, b0, b1, b2, hb0, hb1, hb2, hdisj⟩
  rcases hdisj with htr | htr | htr <;> rw [htr]
  · rw [s0]
    exact List.nil_prefix
  · rw [sapp, scons, s0, s1]
    exact ⟨[2], rfl⟩
  · rw [sapp, scons, sapp, scons, s0, s1, s2]
    exact List.prefix_rfl

def envRaise : Nat → GenOutcome := fun _ => GenOutcome.raise "boom".toList

/-- Witness for C2 at an endpoint that raises on every attempt. -/
theorem claim_C2_witness :
    sleepsOf (analyze_case true envRaise "caso".toList 3).1 <+: [1, 2] :=
  (claim_C2_theorem envRaise "caso".toList (by decide)).1

theorem updates_append {env : Nat → GenOutcome} {a b : List ApiEvent}
    (ha : updatesFollowReturningCalls env a) (hb : updatesFollowReturningCalls env b) :
    updatesFollowReturningCalls env (a ++ b) := by
  intro i hmem hret
  rcases List.mem_append.mp hmem with hm | hm
  · rcases ha i hm hret with ⟨s, t, hst⟩
    exact ⟨s, t ++ b, by rw [← hst]; simp⟩
  · rcases hb i hm hret with ⟨s, t, hst⟩
    exact ⟨a ++ s, t, by rw [← hst]; simp⟩

theorem updates_sleep {env : Nat → GenOutcome} {n : Nat} :
    updatesFollowReturningCalls env [ApiEvent.sleep n] := by
  intro i hmem _
  simp at hmem

theorem updates_attemptOnce (env : Nat → GenOutcome) (i : Nat) :
    updatesFollowReturningCalls env (attemptOnce env i).1 := by
  intro j hmem hret
  cases henv : env i with
  | raise e =>
    rw [attemptOnce_fst_raise env i e henv] at hmem
    have hj : j = i := by
      rcases List.mem_singleton.mp hmem with heq
      exact ApiEvent.callEndpoint.inj heq
    subst hj
    rcases hret with ⟨t, ht⟩
    rw [henv] at ht
    exact GenOutcome.noConfusion ht
  | ret t =>
    rw [attemptOnce_fst_ret env i t henv] at hmem ⊢
    have hj : j = i := by
      rcases List.mem_cons.mp hmem with heq | hmem2
      · exact ApiEvent.callEndpoint.inj heq
      · rcases List.mem_singleton.mp hmem2 with heq
        exact ApiEvent.noConfusion heq
    subst hj
    exact List.infix_rfl

theorem updates_analyzeLoop (env : Nat → GenOutcome) :
    ∀ r i, updatesFollowReturningCalls env (analyzeLoop env r i).1
  | 0, i => by
    intro j hmem _
    simp [analyzeLoop] at hmem
  | r + 1, i => by
    rw [analyzeLoop_succ]
    cases h0 : (attemptOnce env i).2 with
    | ok v => exact updates_attemptOnce env i
    | fail msg =>
      by_cases hr : r = 0
      · simp only [hr, if_true]
        exact updates_attemptOnce env i
      · simp only [if_neg hr]
        exact updates_append (updates_attemptOnce env i)
          (updates_append updates_sleep (updates_analyzeLoop env r (i + 1)))

theorem suggOnce_fst_ret (env : Nat → GenOutcome) (i : Nat) (t : Str)
    (h : env i = GenOutcome.ret t) :
    (suggOnce env i).1 = [ApiEvent.callEndpoint i, ApiEvent.updateLastCall] := by
  unfold suggOnce
  rw [h]

theorem suggOnce_fst_raise (env : Nat → GenOutcome) (i : Nat) (e : Str)
    (h : env i = GenOutcome.raise e) :
    (suggOnce env i).1 = [ApiEvent.callEndpoint i] := by
  unfold suggOnce
  rw [h]

theorem updates_suggOnce (env : Nat → GenOutcome) (i : Nat) :
    updatesFollowReturningCalls env (suggOnce env i).1 := by
  intro j hmem hret
  cases henv : env i with
  | raise e =>
    rw [suggOnce_fst_raise env i e henv] at hmem
    have hj : j = i := ApiEvent.callEndpoint.inj (List.mem_singleton.mp hmem)
    subst hj
    rcases hret with ⟨t, ht⟩
    rw [henv] at ht
    exact GenOutcome.noConfusion ht
  | ret t =>
    rw [suggOnce_fst_ret env i t henv] at hmem ⊢
    have hj : j = i := by
      rcases List.mem_cons.mp hmem with heq | hmem2
      · exact ApiEvent.callEndpoint.inj heq
      · exact ApiEvent.noConfusion (List.mem_singleton.mp hmem2)
    subst hj
    exact List.infix_rfl

theorem suggestionsLoop_succ (env : Nat → GenOutcome) (r i : Nat) :
    suggestionsLoop env (r + 1) i =
      match (suggOnce env i).2 with
      | SuggOut.ok v => ((suggOnce env i).1, some v)
      | SuggOut.failNoSleep =>
        if r = 0 then ((suggOnce env i).1, none)
        else ((suggOnce env i).1 ++ (suggestionsLoop env r (i + 1)).1,
              (suggestionsLoop env r (i + 1)).2)
      | SuggOut.failSleep =>
        if r = 0 then ((suggOnce env i).1, none)
        else ((suggOnce env i).1 ++ ApiEvent.sleep 1 :: (suggestionsLoop env r (i + 1)).1,
              (suggestionsLoop env r (i + 1)).2)
      | SuggOut.exc =>
        if r = 0 then ((suggOnce env i).1, none)
        else ((suggOnce env i).1 ++ ApiEvent.sleep 1 :: (suggestionsLoop env r (i + 1)).1,
              (suggestionsLoop env r (i + 1)).2) := rfl

theorem updates_suggestionsLoop (env : Nat → GenOutcome) :
    ∀ r i, updatesFollowReturningCalls env (suggestionsLoop env r i).1
  | 0, i => by
    intro j hmem _
    simp [suggestionsLoop] at hmem
  | r + 1, i => by
    rw [suggestionsLoop_succ]
    cases h0 : (suggOnce env i).2 with
    | ok v => exact updates_suggOnce env i
    | failNoSleep =>
      by_cases hr : r = 0
      · simp only [hr, if_true]
        exact updates_suggOnce env i
      · simp only [if_neg hr]
        exact updates_append (updates_suggOnce env i) (updates_suggestionsLoop env r (i + 1))
    | failSleep =>
      by_cases hr : r = 0
      · simp only [hr, if_true]
        exact updates_suggOnce env i
      · simp only [if_neg hr]
        exact updates_append (updates_suggOnce env i)
          (updates_append updates_sleep (updates_suggestionsLoop env r (i + 1)))
    | exc =>
      by_cases hr : r = 0
      · simp only [hr, if_true]
        exact updates_suggOnce env i
      · simp only [if_neg hr]
        exact updates_append (updates_suggOnce env i)
          (updates_append updates_sleep (updates_suggestionsLoop env r (i + 1)))

theorem recordOnce_fst_ret (env : Nat → GenOutcome) (i : Nat) (t : Str)
    (h : env i = GenOutcome.ret t) :
    (recordOnce env i).1 = [ApiEvent.callEndpoint i, ApiEvent.updateLastCall] := by
  unfold recordOnce
  rw [h]

theorem recordOnce_fst_raise (env : Nat → GenOutcome) (i : Nat) (e : Str)
    (h : env i = GenOutcome.raise e) :
    (recordOnce env i).1 = [ApiEvent.callEndpoint i] := by
  unfold recordOnce
  rw [h]

theorem updates_recordOnce (env : Nat → GenOutcome) (i : Nat) :
    updatesFollowReturningCalls env (recordOnce env i).1 := by
  intro j hmem hret
  cases henv : env i with
  | raise e =>
    rw [recordOnce_fst_raise env i e henv] at hmem
    have hj : j = i := ApiEvent.callEndpoint.inj (List.mem_singleton.mp hmem)
    subst hj
    rcases hret with ⟨t, ht⟩
    rw [henv] at ht
    exact GenOutcome.noConfusion ht
  | ret t =>
    rw [recordOnce_fst_ret env i t henv] at hmem ⊢
    have hj : j = i := by
      rcases List.mem_cons.mp hmem with heq | hmem2
      · exact ApiEvent.callEndpoint.inj heq
      · exact ApiEvent.noConfusion (List.mem_singleton.mp hmem2)
    subst hj
    exact List.infix_rfl

theorem recordLoop_succ (env : Nat → GenOutcome) (r i : Nat) :
    recordLoop env (r + 1) i =
      match (recordOnce env i).2 with
      | RecOut.ok t => ((recordOnce env i).1, (some t, none))
      | RecOut.empty =>
        if r = 0 then ((recordOnce env i).1, (none, some "Resposta vazia do modelo".toList))
        else ((recordOnce env i).1 ++ ApiEvent.sleep 1 :: (recordLoop env r (i + 1)).1,
              (recordLoop env r (i + 1)).2)
      | RecOut.exc e =>
        if r = 0 then ((recordOnce env i).1, (none, some (get_friendly_error_message e)))
        else ((recordOnce env i).1 ++ ApiEvent.sleep 1 :: (recordLoop env r (i + 1)).1,
              (recordLoop env r (i + 1)).2) := rfl

theorem updates_recordLoop (env : Nat → GenOutcome) :
    ∀ r i, updatesFollowReturningCalls env (recordLoop env r i).1
  | 0, i => by
    intro j hmem _
    simp [recordLoop] at hmem
  | r + 1, i => by
    rw [recordLoop_succ]
    cases h0 : (recordOnce env i).2 with
    | ok t => exact updates_recordOnce env i
    | empty =>
      by_cases hr : r = 0
      · simp only [hr, if_true]
        exact updates_recordOnce env i
      · simp only [if_neg hr]
        exact updates_append (updates_recordOnce env i)
          (updates_append updates_sleep (updates_recordLoop env r (i + 1)))
    | exc e =>
      by_cases hr : r = 0
      · simp only [hr, if_true]
        exact updates_recordOnce env i
      · simp only [if_neg hr]
        exact updates_append (updates_recordOnce env i)
          (updates_append updates_sleep (updates_recordLoop env r (i + 1)))

/-- Claim C4: in each of the three pipeline calls — `analyze_case`,
`generate_suggestions`, `generate_traditional_record` — every attempt
whose remote call returns (whether the attempt then succeeds or fails)
updates `last_api_call` immediately after the call event. -/
theorem claim_C4_theorem (env : Nat → GenOutcome) (configured : Bool) (context : Str)
    (mrA mrS mrR : Nat) :
    updatesFollowReturningCalls env (analyze_case configured env context mrA).1 ∧
    updatesFollowReturningCalls env (generate_suggestions env mrS).1 ∧
    updatesFollowReturningCalls env (generate_traditional_record env mrR).1 := by
  refine ⟨?_, updates_suggestionsLoop env mrS 0, updates_recordLoop env mrR 0⟩
  unfold analyze_case
  split
  · intro j hmem _
    simp at hmem
  split
  · intro j hmem _
    simp at hmem
  exact updates_analyzeLoop env mrA 0

def envRet : Nat → GenOutcome := fun _ => GenOutcome.ret "x".toList

/-- Witness for C4: a returning attempt's call event is immediately
followed by the `last_api_call` update in a concrete run. -/
theorem claim_C4_witness :
    [ApiEvent.callEndpoint 0, ApiEvent.updateLastCall] <:+:
      (analyze_case true envRet "caso".toList 3).1 :=
  (claim_C4_theorem envRet true "caso".toList 3 2 2).1 0 (by decide) ⟨"x".toList, rfl⟩

theorem analyzeLoop_cases (env : Nat → GenOutcome) : ∀ r i,
    (∃ v, (analyzeLoop env r i).2 = (some v, none)) ∨
    (∃ m, (analyzeLoop env r i).2 = (none, some m))
  | 0, _ => Or.inr ⟨_, rfl⟩
  | r + 1, i => by
    rw [analyzeLoop_succ]
    cases h0 : (attemptOnce env i).2 with
    | ok v => exact Or.inl ⟨v, rfl⟩
    | fail msg =>
      by_cases hr : r = 0
      · exact Or.inr ⟨msg, by simp [hr]⟩
      · rcases analyzeLoop_cases env r (i + 1) with ⟨v, hv⟩ | ⟨m, hm⟩
        · exact Or.inl ⟨v, by simp [hr, hv]⟩
        · exact Or.inr ⟨m, by simp [hr, hm]⟩

theorem analyzeLoop_allFail (env : Nat → GenOutcome) : ∀ r i m, 1 ≤ r →
    (∀ j, j < r → ∀ v, (attemptOnce env (i + j)).2 ≠ AttemptOut.ok v) →
    (attemptOnce env (i + (r - 1))).2 = AttemptOut.fail m →
    (analyzeLoop env r i).2 = (none, some m)
  | 0, _, _, h1, _, _ => absurd h1 (by omega)
  | 1, i, m, _, hall, hlast => by
    rw [analyzeLoop_succ]
    rw [show i + (1 - 1) = i from by omega] at hlast
    rw [hlast]
    simp
  | r + 2, i, m, _, hall, hlast => by
    rw [analyzeLoop_succ]
    cases h0 : (attemptOnce env i).2 with
    | ok v =>
      refine absurd h0 ?_
      have := hall 0 (by omega) v
      rwa [show i + 0 = i from rfl] at this
    | fail msg =>
      have hr : ¬ (r + 1 = 0) := by omega
      have ih := analyzeLoop_allFail env (r + 1) (i + 1) m (by omega)
        (fun j hj v => by
          have hh := hall (j + 1) (by omega) v
          rwa [show i + (j + 1) = i + 1 + j from by omega] at hh)
        (by rwa [show i + (r + 2 - 1) = i + 1 + (r + 1 - 1) from by omega] at hlast)
      simp [hr, ih]

/-- Claim C9: for every endpoint behaviour (raising, returning empty,
or returning unparseable text), `analyze_case` always yields a defined
`(result, error)` pair — `(some result, none)` or `(none, some message)`
— and when every attempt fails it returns `(none, m)` where `m` is the
final attempt's classified error message. -/
theorem claim_C9_theorem (env : Nat → GenOutcome) (context : Str) (mr : Nat)
    (hmr : 1 ≤ mr) (hctx : pyStrip context ≠ []) :
    ((∃ v, (analyze_case true env context mr).2 = (some v, none)) ∨
     (∃ m, (analyze_case true env context mr).2 = (none, some m))) ∧
    (∀ m, (∀ j, j < mr → ∀ v, (attemptOnce env j).2 ≠ AttemptOut.ok v) →
      (attemptOnce env (mr - 1)).2 = AttemptOut.fail m →
      (analyze_case true env context mr).2 = (none, some m)) := by
  have hrun : analyze_case true env context mr = analyzeLoop env mr 0 := by
    simp [analyze_case, hctx]
  rw [hrun]
  exact ⟨analyzeLoop_cases env mr 0,
    fun m hall hlast => analyzeLoop_allFail env mr 0 m hmr
      (fun j hj v => by simpa using hall j hj v)
      (by simpa using hlast)⟩

def envQuota : Nat → GenOutcome := fun _ => GenOutcome.raise "429 quota exceeded".toList

/-- Witness for C9: with an endpoint raising a quota error on every
attempt, the pipeline returns null plus the classified quota message. -/
theorem claim_C9_witness :
    (analyze_case true envQuota "caso".toList 3).2 =
      (none, some (get_friendly_error_message "429 quota exceeded".toList)) := by
  refine (claim_C9_theorem envQuota "caso".toList 3 (by omega) (by decide)).2 _ ?_ rfl
  intro j hj v hv
  simp [attemptOnce, envQuota] at hv

theorem jGetFields_trunc : ∀ (fs : List (Str × JValue)) (l : List JValue),
    jGetFields fs diagKey = some (JValue.arr l) →
    jGetFields (fs.map (fun kv => if kv.1 = diagKey then (kv.1, truncDiagArr kv.2) else kv))
        diagKey = some (JValue.arr (l.take 5))
  | [], l, h => by simp [jGetFields] at h
  | (k, v) :: t, l, h => by
    by_cases hk : k = diagKey
    · subst hk
      simp only [jGetFields, if_pos rfl] at h
      have hv : v = JValue.arr l := Option.some.inj h
      subst hv
      simp [jGetFields, truncDiagArr]
    · simp only [List.map_cons, if_neg hk]
      simp only [jGetFields, if_neg hk] at h ⊢
      exact jGetFields_trunc t l h

theorem attemptOk_diag (env : Nat → GenOutcome) (j : Nat) (v : JValue)
    (h : (attemptOnce env j).2 = AttemptOut.ok v) :
    ∃ l, jGet v diagKey = some (JValue.arr l) ∧ l.length ≤ 5 := by
  cases henv : env j with
  | raise e =>
    rw [show (attemptOnce env j).2 = AttemptOut.fail (get_friendly_error_message e) from by
      unfold attemptOnce; rw [henv]] at h
    exact AttemptOut.noConfusion h
  | ret text =>
    have hresp : attemptResponse text = AttemptOut.ok v := by
      rw [show (attemptOnce env j).2 = attemptResponse text from by
        unfold attemptOnce; rw [henv]] at h
      exact h
    unfold attemptResponse at hresp
    by_cases he : text.isEmpty
    · rw [if_pos he] at hresp
      exact AttemptOut.noConfusion hresp
    · rw [if_neg he] at hresp
      cases hp : parse_json_response text with
      | none =>
        simp only [hp] at hresp
        exact AttemptOut.noConfusion hresp
      | some result =>
        simp only [hp] at hresp
        cases hs : structureCheck result with
        | error m =>
          simp only [hs] at hresp
          exact AttemptOut.noConfusion hresp
        | ok l =>
          simp only [hs] at hresp
          have hv : limitDiag result = v := AttemptOut.ok.inj hresp
          subst hv
          cases result with
          | obj fs =>
            have hg : jGetFields fs diagKey = some (JValue.arr l) := by
              simp only [structureCheck] at hs
              cases hq : jGet (JValue.obj fs) diagKey with
              | none =>
                simp only [hq] at hs
                exact Except.noConfusion hs
              | some dv =>
                simp only [hq] at hs
                cases dv with
                | arr l2 =>
                  have : l2 = l := Except.ok.inj hs
                  subst this
                  exact hq
                | null => exact Except.noConfusion hs
                | bool b => exact Except.noConfusion hs
                | num m e => exact Except.noConfusion hs
                | str s => exact Except.noConfusion hs
                | obj fs2 => exact Except.noConfusion hs
            refine ⟨l.take 5, jGetFields_trunc fs l hg, ?_⟩
            rw [List.length_take]
            exact min_le_left ..
          | null => exact absurd hs (by simp [structureCheck])
          | bool b => exact absurd hs (by simp [structureCheck])
          | num m e => exact absurd hs (by simp [structureCheck])
          | str s =>
            simp only [structureCheck] at hs
            split at hs <;> exact Except.noConfusion hs
          | arr l2 =>
            simp only [structureCheck] at hs
            split at hs <;> exact Except.noConfusion hs

theorem analyzeLoop_some (env : Nat → GenOutcome) : ∀ r i v,
    (analyzeLoop env r i).2.1 = some v →
    ∃ j, (attemptOnce env j).2 = AttemptOut.ok v
  | 0, i, v, h => by simp [analyzeLoop] at h
  | r + 1, i, v, h => by
    rw [analyzeLoop_succ] at h
    cases h0 : (attemptOnce env i).2 with
    | ok w =>
      rw [h0] at h
      simp at h
      exact ⟨i, by rw [h0, h]⟩
    | fail msg =>
      rw [h0] at h
      by_cases hr : r = 0
      · simp [hr] at h
      · simp only [if_neg hr] at h
        exact analyzeLoop_some env r (i + 1) v h

/-- Claim C3 (amended): every non-null result of `analyze_case` carries a
`diagnosticos` list of length at most 5 (the `[:5]` truncation); the
probability values inside it are whatever the parsed response contained —
the pipeline performs no range check (`validate_diagnosticos` exists in
`validators.py` but is never called on this path). -/
theorem claim_C3_theorem (configured : Bool) (env : Nat → GenOutcome) (context : Str)
    (mr : Nat) (v : JValue)
    (h : (analyze_case configured env context mr).2.1 = some v) :
    ∃ l, jGet v diagKey = some (JValue.arr l) ∧ l.length ≤ 5 := by
  unfold analyze_case at h
  split at h
  · simp at h
  split at h
  · simp at h
  obtain ⟨j, hj⟩ := analyzeLoop_some env mr 0 v h
  exact attemptOk_diag env j v hj

def probTxt : Str :=
  "\x7b\"diagnosticos\": [\x7b\"nome\": \"X\", \"probabilidade\": 150\x7d], \"nivel_confianca\": \"alto\"\x7d".toList

def envProb : Nat → GenOutcome := fun _ => GenOutcome.ret probTxt

def diagX : JValue :=
  JValue.obj [("nome".toList, JValue.str "X".toList),
              ("probabilidade".toList, JValue.num 150 0)]

def vProb : JValue :=
  JValue.obj [(diagKey, JValue.arr [diagX]),
              ("nivel_confianca".toList, JValue.str "alto".toList)]

/-- Counterexample to C3 as stated: a well-formed response whose single
diagnosis has probability 150 passes the pipeline's structure check
unchanged, so the returned result violates the claimed 0–100 range. -/
theorem claim_C3_counterexample :
    (analyze_case true envProb "caso".toList 3).2 = (some vProb, none) ∧
    jGet vProb diagKey = some (JValue.arr [diagX]) ∧
    jGet diagX "probabilidade".toList = some (JValue.num 150 0) ∧
    ¬ ((0 : ℤ) ≤ 150 ∧ (150 : ℤ) ≤ 100) :=
  ⟨rfl, rfl, rfl, by decide⟩

def sevenTxt : Str := "\x7b\"diagnosticos\": [1, 2, 3, 4, 5, 6, 7]\x7d".toList

def envSeven : Nat → GenOutcome := fun _ => GenOutcome.ret sevenTxt

def vSeven : JValue :=
  JValue.obj [(diagKey,
    JValue.arr [JValue.num 1 0, JValue.num 2 0, JValue.num 3 0, JValue.num 4 0, JValue.num 5 0])]

/-- Witness for C3 (amended): a response with seven diagnoses is
truncated to five. -/
theorem claim_C3_witness :
    ∃ l, jGet vSeven diagKey = some (JValue.arr l) ∧ l.length ≤ 5 :=
  claim_C3_theorem true envSeven "caso".toList 3 vSeven rfl

def truncSample : Str :=
  "\x7b\"diagnosticos\": [\x7b\"nome\": \"A\", \"probabilidade\": 80\x7d,".toList

def recoveredSample : JValue :=
  JValue.obj [(diagKey, JValue.arr
    [JValue.obj [("nome".toList, JValue.str "A".toList),
                 ("probabilidade".toList, JValue.num 80 0)]])]

/-- Counterexample to C1 as stated: `truncSample` (a response truncated
right after a complete first diagnosis) fails the strict parse with the
truncation-signature error "Expecting value".  The claim's
bracket-then-brace repair recovers the partial result, but the source
appends the closing braces *before* the closing brackets, producing
invalid JSON, so `_parse_json_response` returns `None`: the parser does
not implement the repair order the claim states. -/
theorem claim_C1_counterexample :
    loads (stripFences truncSample) = Except.error JErr.expectingValue ∧
    isTruncationSignature JErr.expectingValue = true ∧
    claimParseResponse truncSample = some recoveredSample ∧
    parse_json_response truncSample = none :=
  ⟨rfl, by decide, rfl, rfl⟩

/-- Claim C1 (amended): on every raw response whose cleaned text fails
the strict parse with a truncation-signature error and contains the
literal marker `"diagnosticos": [` (the repair is attempted only then),
the parser strips trailing commas/newlines/spaces, counts unmatched
opening braces and brackets versus closing ones, appends the missing
closing tokens in brace-then-bracket order (all `"\n}"` first, then all
`"\n]"`), re-attempts a strict parse, and returns the repaired result
exactly when its `diagnosticos` entry is present and truthy. -/
theorem claim_C1_theorem (t : Str) (e : JErr)
    (he : loads (stripFences t) = Except.error e)
    (hsig : isTruncationSignature e = true)
    (hmark : pyIn diagMarker (stripFences t) = true) :
    parse_json_response t =
      match loads (rstripCommaNlSpace (stripFences t)
          ++ (List.replicate ((rstripCommaNlSpace (stripFences t)).count '{'
                - (rstripCommaNlSpace (stripFences t)).count '}') "\n\x7d".toList).flatten
          ++ (List.replicate ((rstripCommaNlSpace (stripFences t)).count '['
                - (rstripCommaNlSpace (stripFences t)).count ']') "\n]".toList).flatten) with
      | Except.ok pv =>
        match jGet pv diagKey with
        | some dv => if jTruthy dv then some pv else none
        | none => none
      | Except.error _ => none := by
  have hdef : parse_json_response t =
      (match loads (stripFences t) with
       | Except.ok v => some v
       | Except.error e2 =>
         if isTruncationSignature e2 then
           if pyIn diagMarker (stripFences t) then
             match loads (repairedText (stripFences t)) with
             | Except.ok pv =>
               match jGet pv diagKey with
               | some dv => if jTruthy dv then some pv else none
               | none => none
             | Except.error _ => none
           else none
         else none) := rfl
  have hdef2 : parse_json_response t =
      (if isTruncationSignature e then
         if pyIn diagMarker (stripFences t) then
           match loads (repairedText (stripFences t)) with
           | Except.ok pv =>
             match jGet pv diagKey with
             | some dv => if jTruthy dv then some pv else none
             | none => none
           | Except.error _ => none
         else none
       else none) := by rw [hdef, he]
  have hrep : repairedText (stripFences t) =
      rstripCommaNlSpace (stripFences t)
        ++ (List.replicate ((rstripCommaNlSpace (stripFences t)).count '{'
              - (rstripCommaNlSpace (stripFences t)).count '}') "\n\x7d".toList).flatten
        ++ (List.replicate ((rstripCommaNlSpace (stripFences t)).count '['
              - (rstripCommaNlSpace (stripFences t)).count ']') "\n]".toList).flatten := rfl
  rw [hdef2, hsig, hmark, hrep]
  simp only [eq_self_iff_true, if_true]

/-- Witness for C1 (amended) at the truncated sample: the repaired text
(braces appended first) fails to re-parse, so the parser returns
`None`. -/
theorem claim_C1_witness : parse_json_response truncSample = none := by
  have h := claim_C1_theorem truncSample JErr.expectingValue rfl (by decide) (by decide)
  exact h.trans (by rfl)

/-- Witness for C8 at a concrete session: one blank and two real adds. -/
theorem claim_C8_witness :
    renderFullText (applyAdds (create_empty_context [])
        [("febre alta".toList, "dados_paciente".toList, "t1".toList),
         ("   ".toList, "dados_paciente".toList, "t2".toList),
         ("tosse seca".toList, "dados_paciente".toList, "t3".toList)]) =
      pyJoin "\n\n".toList
        ([("febre alta".toList, "dados_paciente".toList, "t1".toList),
          ("   ".toList, "dados_paciente".toList, "t2".toList),
          ("tosse seca".toList, "dados_paciente".toList, "t3".toList)].filterMap
          (fun o => if pyStrip o.1 = [] then none else some (pyStrip o.1))) :=
  claim_C8_theorem []
    [("febre alta".toList, "dados_paciente".toList, "t1".toList),
     ("   ".toList, "dados_paciente".toList, "t2".toList),
     ("tosse seca".toList, "dados_paciente".toList, "t3".toList)]

/-- Witness for C10 at concrete rate states. -/
theorem claim_C10_witness :
    can_make_api_call 3 none = (check_rate_limit_status none).1 ∧
    can_make_api_call 3 (some 1) = (check_rate_limit_status (some 1)).1 ∧
    can_make_api_call 3 (some 5) = (check_rate_limit_status (some 5)).1 :=
  ⟨claim_C10_theorem none, claim_C10_theorem (some 1), claim_C10_theorem (some 5)⟩
